import Mathlib

/-!
Shallow embedding of the HFT market-data core
(`src/cpp/src/hft/market_data_processor.cpp` and its header).

Modelling conventions:
* C++ `float` arithmetic is embedded as exact rational (`ℚ`) arithmetic;
  decimal literals of the source become the corresponding exact rationals.
* Machine integers are embedded as `ℕ`, with an explicit `% 2^w` at the
  places where the source's fixed-width arithmetic can actually wrap on
  inputs in scope (the 64-bit xorshift state, the `uint8_t` venue-id cast,
  the `uint32_t` sum `bid_size + ask_size + 1`, and the `uint32_t`
  truncation of the batch jitter bound).  Nanosecond timestamps
  (`uint64_t`, fed from the wall clock) are embedded as plain `ℕ`.
* The transcendental library calls `std::log` and `std::sqrt` are
  abstracted as function parameters `rlog` and `rsqrt` of the processor.
* Wall-clock reads are inputs: `generate_tick` takes the nanosecond clock
  value `now` stored into the tick, and the measured call duration `dur`
  that the code adds to its timing counter.
-/

namespace Hft

/-- `struct MarketTick` of the header (prices/spread are `float`,
sizes/volume `uint32_t`, `venue_id` `uint8_t`, timestamp `uint64_t`). -/
structure MarketTick where
  timestamp_ns : ℕ
  symbol_id : ℕ
  bid_price : ℚ
  ask_price : ℚ
  bid_size : ℕ
  ask_size : ℕ
  last_price : ℚ
  volume : ℕ
  venue_id : ℕ
  spread_bps : ℚ
deriving DecidableEq

instance : Inhabited MarketTick :=
  ⟨{ timestamp_ns := 0, symbol_id := 0, bid_price := 0, ask_price := 0,
     bid_size := 0, ask_size := 0, last_price := 0, volume := 0,
     venue_id := 0, spread_bps := 0 }⟩

/-- `struct VenueInfo` of the header. -/
structure VenueInfo where
  name : String
  maker_fee : ℚ
  taker_fee : ℚ
  rebate : ℚ
  base_latency_us : ℕ
  jitter_range_us : ℕ
deriving DecidableEq

/-- `struct SymbolState` of `HighFrequencyTickGenerator`. -/
structure SymbolState where
  current_price : ℚ
  volatility : ℚ
  avg_volume : ℕ
  tick_multiplier : ℕ
  last_update_ns : ℕ
  price_trend : ℚ
  symbol_name : String
deriving DecidableEq

instance : Inhabited SymbolState :=
  ⟨{ current_price := 0, volatility := 0, avg_volume := 0, tick_multiplier := 0,
     last_update_ns := 0, price_trend := 0, symbol_name := "" }⟩

/-- The mutable state of a `HighFrequencyTickGenerator`: the symbol registry
(`symbols_` up to `num_symbols_`), the venue table (`venues_` up to
`num_venues_`), the xorshift state `rng_state_`, the two performance
counters, and `target_tick_interval_ns_`.  The fixed-capacity arrays with
an active count are embedded as lists of the active entries. -/
structure GenState where
  symbols : List SymbolState
  venues : List VenueInfo
  rng_state : ℕ
  total_ticks_generated : ℕ
  generation_time_ns : ℕ
  target_tick_interval_ns : ℕ
deriving DecidableEq

/-- `xorshift64()` (header, lines 419-426): shifts 13/7/17 on the 64-bit
state; the stored and returned value are the same updated state. -/
def xorshift64 (x : ℕ) : ℕ :=
  let x1 := (x ^^^ (x <<< 13)) % 2 ^ 64
  let x2 := x1 ^^^ (x1 >>> 7)
  (x2 ^^^ (x2 <<< 17)) % 2 ^ 64

/-- `fast_random_float(min, max)` applied to an already-advanced state `r`:
the low 24 bits of `r` normalized to `[0,1)`, scaled to `[lo, hi)`.
(`r & 0xFFFFFF` is written `r % 2 ^ 24`.) -/
def fast_random_float (lo hi : ℚ) (r : ℕ) : ℚ :=
  lo + ((r % 2 ^ 24 : ℕ) : ℚ) / 16777216 * (hi - lo)

/-- `fast_random_uint32(min, max)` applied to an already-advanced state `r`:
`min + r % (max - min + 1)`.  Caller contract of the source: `min ≤ max`
(both below `2^32`), under which this `ℕ` expression agrees with the
`uint32_t` result. -/
def fast_random_uint32 (lo hi : ℕ) (r : ℕ) : ℕ :=
  lo + r % (hi - lo + 1)

/-- Total selection weight (`generate_tick`, lines 85-88).  The source
accumulates in `uint32_t`; for configured universes the sum is at most
`64 * 8 < 2^32`, where this `ℕ` sum agrees with it. -/
def total_weight (syms : List SymbolState) : ℕ :=
  (syms.map (fun s => s.tick_multiplier)).sum

/-- Cumulative weight of the first `k` symbols in registration order. -/
def cum_weight (syms : List SymbolState) (k : ℕ) : ℕ :=
  ((syms.take k).map (fun s => s.tick_multiplier)).sum

/-- The selection scan of `generate_tick` (lines 91-100): `selected` starts
at 0; walk the registry accumulating weight and stop at the first index
whose cumulative weight strictly exceeds the draw.  `i` is the absolute
index of the head of `l`, `c` the weight accumulated so far. -/
def select_symbol_go (r : ℕ) : List SymbolState → ℕ → ℕ → ℕ
  | [], _, _ => 0
  | s :: rest, c, i =>
    if r < c + s.tick_multiplier then i else select_symbol_go r rest (c + s.tick_multiplier) (i + 1)

/-- `selected_symbol` as computed by the loop at lines 91-100. -/
def select_symbol (syms : List SymbolState) (r : ℕ) : ℕ :=
  select_symbol_go r syms 0 0

/-- The xorshift state after `k` draws of the current call. -/
def rng_after (g : GenState) (k : ℕ) : ℕ :=
  xorshift64^[k] g.rng_state

/-- Draw 1 (line 90): `random_weight = fast_random_uint32(0, total_weight - 1)`. -/
def drawn_weight (g : GenState) : ℕ :=
  fast_random_uint32 0 (total_weight g.symbols - 1) (rng_after g 1)

/-- The index selected by the weighted scan (lines 91-100). -/
def selected_of (g : GenState) : ℕ :=
  select_symbol g.symbols (drawn_weight g)

/-- `auto& symbol = symbols_[selected_symbol]` (line 102). -/
def selected_sym (g : GenState) : SymbolState :=
  g.symbols.getD (selected_of g) default

/-- Draw 2 plus drift (lines 105-106): uniform in
`[-volatility * 0.01, volatility * 0.01)` plus `price_trend * 0.001`. -/
def price_change_of (g : GenState) : ℚ :=
  fast_random_float (-((selected_sym g).volatility * 0.01)) ((selected_sym g).volatility * 0.01)
      (rng_after g 2)
    + (selected_sym g).price_trend * 0.001

/-- Lines 108-109: apply the change and floor at `0.01`. -/
def new_price_of (g : GenState) : ℚ :=
  max ((selected_sym g).current_price * (1 + price_change_of g)) 0.01

/-- Draw 3 (line 112): raw spread in basis points, uniform in `[0.5, 3.0)`. -/
def raw_spread_of (g : GenState) : ℚ :=
  fast_random_float 0.5 3.0 (rng_after g 3)

/-- Lines 112-113: the raw spread, doubled when the symbol's (pre-update)
`current_price` exceeds 500. -/
def spread_bps_of (g : GenState) : ℚ :=
  if 500 < (selected_sym g).current_price then raw_spread_of g * 2.0 else raw_spread_of g

/-- Line 115: `spread_dollars = (spread_bps / 10000) * new_price`. -/
def spread_dollars_of (g : GenState) : ℚ :=
  spread_bps_of g / 10000 * new_price_of g

/-- Line 116. -/
def bid_price_of (g : GenState) : ℚ :=
  new_price_of g - spread_dollars_of g * 0.5

/-- Line 117. -/
def ask_price_of (g : GenState) : ℚ :=
  new_price_of g + spread_dollars_of g * 0.5

/-- Draw 4 (lines 120-123): volume uniform between the truncations of
`avg_volume * 0.1` and `avg_volume * 2.0`.  (The source computes the two
bounds in `float` before the `uint32_t` cast; the embedding truncates the
exact products — no claim depends on the drawn volume's value.) -/
def volume_of (g : GenState) : ℕ :=
  fast_random_uint32 (Int.toNat ⌊((selected_sym g).avg_volume : ℚ) * 0.1⌋)
    (Int.toNat ⌊((selected_sym g).avg_volume : ℚ) * 2.0⌋) (rng_after g 4)

/-- Draw 5 (line 126): `venue_idx = fast_random_uint32(0, num_venues_ - 1)`. -/
def venue_idx_of (g : GenState) : ℕ :=
  fast_random_uint32 0 (g.venues.length - 1) (rng_after g 5)

/-- Draw 6 (line 139). -/
def bid_size_of (g : GenState) : ℕ :=
  fast_random_uint32 100 10000 (rng_after g 6)

/-- Draw 7 (line 140). -/
def ask_size_of (g : GenState) : ℕ :=
  fast_random_uint32 100 10000 (rng_after g 7)

/-- `generate_tick()` (lines 81-154).  Returns the tick and the updated
generator state.  `now` is the nanosecond clock value read at lines
130-131 (also the tick's timestamp), `dur` the measured call duration
added to `generation_time_ns_` at line 151.  The `static_cast<uint8_t>`
of the venue index at line 143 is the `% 256`. -/
def generate_tick (g : GenState) (now dur : ℕ) : MarketTick × GenState :=
  ({ timestamp_ns := now
     symbol_id := selected_of g
     bid_price := bid_price_of g
     ask_price := ask_price_of g
     bid_size := bid_size_of g
     ask_size := ask_size_of g
     last_price := new_price_of g
     volume := volume_of g
     venue_id := venue_idx_of g % 256
     spread_bps := spread_bps_of g },
   { g with
     symbols := g.symbols.set (selected_of g)
       { selected_sym g with current_price := new_price_of g, last_update_ns := now }
     rng_state := rng_after g 7
     total_ticks_generated := g.total_ticks_generated + 1
     generation_time_ns := g.generation_time_ns + dur })

/-- The loop body of `generate_tick_batch` for indices `i ≥ 1` (lines
159-166): generate a tick, then overwrite its timestamp with the previous
tick's timestamp plus the target interval plus a fresh jitter draw
(`fast_random_uint32(0, target_tick_interval_ns_ / 10)`; the `uint64_t`
bound is truncated to the `uint32_t` parameter, hence the `% 2 ^ 32`).
Arguments: loop index, remaining count, state, previous tick's timestamp. -/
def batch_go (clocks : ℕ → ℕ × ℕ) : ℕ → ℕ → GenState → ℕ → List MarketTick × GenState
  | _, 0, g, _ => ([], g)
  | i, n + 1, g, prev_ts =>
    let tg := generate_tick g (clocks i).1 (clocks i).2
    let s := xorshift64 tg.2.rng_state
    let jitter := fast_random_uint32 0 (tg.2.target_tick_interval_ns / 10 % 2 ^ 32) s
    let ts := prev_ts + (tg.2.target_tick_interval_ns + jitter)
    let rg := batch_go clocks (i + 1) n { tg.2 with rng_state := s } ts
    ({ tg.1 with timestamp_ns := ts } :: rg.1, rg.2)

/-- `generate_tick_batch(output_buffer, count)` (lines 156-172).  `clocks i`
supplies the `(now, dur)` clock readings of the `i`-th `generate_tick`
call; `batch_dur` is the whole batch's measured duration added to
`generation_time_ns_` at line 171. -/
def generate_tick_batch (g : GenState) (clocks : ℕ → ℕ × ℕ) (count : ℕ) (batch_dur : ℕ) :
    List MarketTick × GenState :=
  match count with
  | 0 => ([], { g with generation_time_ns := g.generation_time_ns + batch_dur })
  | n + 1 =>
    let tg := generate_tick g (clocks 0).1 (clocks 0).2
    let rg := batch_go clocks 1 n tg.2 tg.1.timestamp_ns
    (tg.1 :: rg.1, { rg.2 with generation_time_ns := rg.2.generation_time_ns + batch_dur })

/-- `BASE_PRICES` (lines 34-38). -/
def BASE_PRICES : List ℚ :=
  [227.21, 521.75, 201.00, 339.18, 182.09, 765.52, 221.37, 1218.37,
   289.71, 46.19, 77.61, 719.33, 92.31, 174.04, 24.61, 252.41, 198.64,
   155.03, 70.79, 105.88, 153.54, 112.58, 635.82, 572.75, 220.28, 308.60, 87.41]

/-- `TICK_MULTIPLIERS` (lines 42-44). -/
def TICK_MULTIPLIERS : List ℕ :=
  [5, 5, 4, 6, 6, 5, 4, 4, 3, 3, 3, 3, 3, 2, 2, 3, 2, 2, 2, 3, 3, 2, 8, 7, 6, 2, 1]

/-- The per-symbol body of the loop in `initialize_symbols` (lines 65-73),
walking the (already truncated) name list: three sequential draws per
symbol (volatility, average volume, trend), base price and tick weight
from the lookup tables with their fallbacks. -/
def init_symbols_go : ℕ → List String → ℕ → List SymbolState × ℕ
  | _, [], s => ([], s)
  | i, name :: rest, s =>
    let s1 := xorshift64 s
    let s2 := xorshift64 s1
    let s3 := xorshift64 s2
    let r := init_symbols_go (i + 1) rest s3
    ({ current_price := BASE_PRICES.getD i 100.0
       volatility := fast_random_float 0.15 0.45 s1
       avg_volume := fast_random_uint32 10000 100000 s2
       tick_multiplier := TICK_MULTIPLIERS.getD i 3
       last_update_ns := 0
       price_trend := fast_random_float (-0.02) 0.02 s3
       symbol_name := name } :: r.1, r.2)

/-- `initialize_symbols(symbol_names, venue_configs)` (lines 59-79):
truncate to the capacities `MAX_SYMBOLS = 64` and `MAX_VENUES = 8`,
then populate the registry. -/
def init_symbols (g : GenState) (symbol_names : List String)
    (venue_configs : List VenueInfo) : GenState :=
  let r := init_symbols_go 0 (symbol_names.take (min symbol_names.length 64)) g.rng_state
  { g with
    symbols := r.1
    venues := venue_configs.take (min venue_configs.length 8)
    rng_state := r.2 }

/-- The registry invariants a configured generator satisfies: every
registered symbol's tick weight is positive and at most 8 (the table
holds values in `[1,8]`, the fallback is 3), and the active counts
respect the capacities `MAX_SYMBOLS = 64` and `MAX_VENUES = 8`. -/
def Configured (g : GenState) : Prop :=
  (∀ s ∈ g.symbols, 1 ≤ s.tick_multiplier ∧ s.tick_multiplier ≤ 8) ∧
    g.symbols.length ≤ 64 ∧ g.venues.length ≤ 8

instance (g : GenState) : Decidable (Configured g) := by
  unfold Configured; infer_instance

/-- `MarketDataProcessor::MLFeatures` of the header. -/
structure MLFeatures where
  price_change : ℚ
  volume_ratio : ℚ
  spread_bps : ℚ
  volatility_5min : ℚ
  momentum_1min : ℚ
  liquidity_score : ℚ
  venue_preference : ℚ
  timestamp_ns : ℕ
deriving DecidableEq

/-- The processor's relaxed atomic counters (`ProcessingStats`). -/
structure ProcStats where
  ticks_processed : ℕ
  processing_time_ns : ℕ
  feature_calculations : ℕ
deriving DecidableEq

/-- `MarketDataProcessor::process_tick` (lines 199-260).  The local
`MLFeatures features;` at line 204 is default-initialized in C++, so its
fields start out indeterminate: `features0` is that indeterminate initial
record; a field not assigned on the taken path keeps its `features0`
value.  `rlog`/`rsqrt` stand for `std::log`/`std::sqrt`.  The history
pointer-plus-size pair is an `Option (List MarketTick)` (`none` = null
buffer); `dur` is the measured call duration of lines 252-253.  The sum
`bid_size + ask_size + 1` at line 209 is `uint32_t` arithmetic, hence the
`% 2 ^ 32`. -/
def process_tick (rlog rsqrt : ℚ → ℚ) (features0 : MLFeatures) (st : ProcStats)
    (tick : MarketTick) (history : Option (List MarketTick)) (dur : ℕ) :
    MLFeatures × ProcStats :=
  let base : MLFeatures :=
    { features0 with
      timestamp_ns := tick.timestamp_ns
      spread_bps := tick.spread_bps
      liquidity_score := rlog (((tick.bid_size + tick.ask_size + 1) % 2 ^ 32 : ℕ) : ℚ)
      venue_preference := (tick.venue_id : ℚ) / 10.0 }
  let features :=
    match history with
    | some hist =>
      if 1 < hist.length then
        let recent := min hist.length 10
        let window := hist.drop (hist.length - recent)
        let avg_price := (window.map (fun h => h.last_price)).sum / (recent : ℚ)
        let avg_volume := (window.map (fun h => (h.volume : ℚ))).sum / (recent : ℚ)
        let f1 :=
          { base with
            price_change := (tick.last_price - avg_price) / avg_price
            volume_ratio := (tick.volume : ℚ) / max avg_volume 1.0
            volatility_5min :=
              rsqrt ((window.map
                (fun h => (h.last_price - avg_price) * (h.last_price - avg_price))).sum
                  / (recent : ℚ)) }
        if 5 ≤ recent then
          { f1 with
            momentum_1min :=
              (tick.last_price - (hist.getD (hist.length - 5) default).last_price)
                / (hist.getD (hist.length - 5) default).last_price }
        else
          f1
      else
        { base with price_change := 0, volume_ratio := 1.0,
                    volatility_5min := 0.02, momentum_1min := 0 }
    | none =>
      { base with price_change := 0, volume_ratio := 1.0,
                  volatility_5min := 0.02, momentum_1min := 0 }
  (features,
   { st with
     ticks_processed := st.ticks_processed + 1
     processing_time_ns := st.processing_time_ns + dur
     feature_calculations := st.feature_calculations + 7 })

/-- `MarketDataProcessor::RiskMetrics` of the header. -/
structure RiskMetrics where
  position_risk : ℚ
  market_impact_estimate : ℚ
  execution_cost_estimate : ℚ
  risk_limit_exceeded : Bool
deriving DecidableEq

/-- `MarketDataProcessor::calculate_risk_metrics` (lines 262-282). -/
def calculate_risk_metrics (features : MLFeatures) (position_size : ℚ) : RiskMetrics :=
  let position_risk := |position_size| * features.volatility_5min * 1000.0
  { position_risk := position_risk
    market_impact_estimate := |position_size| * features.spread_bps * 0.1
    execution_cost_estimate := |position_size| * (features.spread_bps * 0.5 + 0.5)
    risk_limit_exceeded :=
      decide (10000.0 < position_risk) || decide ((0.05 : ℚ) < |features.price_change|)
        || decide ((0.10 : ℚ) < features.volatility_5min) }

/-- `generate_tick_c(gen, output)` (lines 308-312).  Null pointers are
`none` for the generator handle and `output_is_null` for the output slot;
the result is the returned code, the generator state after the call, and
the tick written into the output slot (if any). -/
def generate_tick_c (gen : Option GenState) (output_is_null : Bool) (now dur : ℕ) :
    ℕ × Option GenState × Option MarketTick :=
  match gen with
  | none => (0, none, none)
  | some g =>
    if output_is_null then (0, some g, none)
    else (1, some (generate_tick g now dur).2, some (generate_tick g now dur).1)

/-- `process_tick_c(proc, input, output)` (lines 334-339): on non-null
arguments, `process_tick(*input, nullptr, 0)` (null history). -/
def process_tick_c (proc : Option ProcStats) (input : Option MarketTick)
    (output_is_null : Bool) (rlog rsqrt : ℚ → ℚ) (features0 : MLFeatures) (dur : ℕ) :
    ℕ × Option ProcStats × Option MLFeatures :=
  match proc, input with
  | some p, some t =>
    if output_is_null then (0, some p, none)
    else (1, some (process_tick rlog rsqrt features0 p t none dur).2,
             some (process_tick rlog rsqrt features0 p t none dur).1)
  | _, _ => (0, proc, none)

/-! ### Supporting lemmas -/

lemma fast_random_float_bounds (lo hi : ℚ) (r : ℕ) (h : lo < hi) :
    lo ≤ fast_random_float lo hi r ∧ fast_random_float lo hi r < hi := by
  unfold fast_random_float
  have h0 : (0 : ℚ) ≤ ((r % 2 ^ 24 : ℕ) : ℚ) / 16777216 := by positivity
  have h1 : ((r % 2 ^ 24 : ℕ) : ℚ) / 16777216 < 1 := by
    have hn : (r % 2 ^ 24 : ℕ) < 2 ^ 24 := Nat.mod_lt _ (by norm_num)
    have hc : ((r % 2 ^ 24 : ℕ) : ℚ) < 16777216 := by exact_mod_cast hn
    rw [div_lt_one (by norm_num : (0 : ℚ) < 16777216)]
    exact hc
  constructor
  · nlinarith
  · nlinarith

lemma fast_random_uint32_zero_lt (m r : ℕ) (hm : 1 ≤ m) :
    fast_random_uint32 0 (m - 1) r < m := by
  unfold fast_random_uint32
  rw [show m - 1 - 0 + 1 = m from by omega]
  simpa using Nat.mod_lt r (by omega)

lemma fast_random_uint32_zero_le (m r : ℕ) :
    fast_random_uint32 0 m r ≤ m := by
  unfold fast_random_uint32
  have := Nat.mod_lt r (show 0 < m - 0 + 1 by omega)
  omega

lemma total_weight_pos (syms : List SymbolState)
    (h : ∀ s ∈ syms, 1 ≤ s.tick_multiplier) (hne : syms ≠ []) :
    1 ≤ total_weight syms := by
  match syms, hne with
  | s :: rest, _ =>
    have h1 : 1 ≤ s.tick_multiplier := (h s (List.mem_cons_self s rest))
    have : total_weight (s :: rest) = s.tick_multiplier + total_weight rest := by
      simp [total_weight]
    omega

lemma cum_weight_zero (syms : List SymbolState) : cum_weight syms 0 = 0 := by
  simp [cum_weight]

lemma cum_weight_cons (s : SymbolState) (rest : List SymbolState) (k : ℕ) :
    cum_weight (s :: rest) (k + 1) = s.tick_multiplier + cum_weight rest k := by
  simp [cum_weight, List.take_succ_cons]

lemma select_symbol_go_spec (r : ℕ) :
    ∀ (l : List SymbolState) (c i : ℕ), c ≤ r → r < c + total_weight l →
      ∃ k, select_symbol_go r l c i = i + k ∧ k < l.length ∧
        r < c + cum_weight l (k + 1) ∧ ∀ j, j < k → c + cum_weight l (j + 1) ≤ r := by
  intro l
  induction l with
  | nil =>
    intro c i hcr hlt
    exfalso
    simp [total_weight] at hlt
    omega
  | cons s rest ih =>
    intro c i hcr hlt
    by_cases hbr : r < c + s.tick_multiplier
    · refine ⟨0, ?_, ?_, ?_, ?_⟩
      · simp [select_symbol_go, hbr]
      · simp
      · rw [cum_weight_cons, cum_weight_zero]; omega
      · intro j hj; omega
    · have htot : total_weight (s :: rest) = s.tick_multiplier + total_weight rest := by
        simp [total_weight]
      have hlt' : r < (c + s.tick_multiplier) + total_weight rest := by omega
      obtain ⟨k, hk1, hk2, hk3, hk4⟩ := ih (c + s.tick_multiplier) (i + 1) (by omega) hlt'
      refine ⟨k + 1, ?_, ?_, ?_, ?_⟩
      · simp only [select_symbol_go, if_neg hbr]; omega
      · simp; omega
      · rw [cum_weight_cons]; omega
      · intro j hj
        match j with
        | 0 => rw [cum_weight_cons, cum_weight_zero]; omega
        | j' + 1 =>
          rw [cum_weight_cons]
          have := hk4 j' (by omega)
          omega

lemma select_symbol_spec (syms : List SymbolState) (r : ℕ)
    (h : r < total_weight syms) :
    select_symbol syms r < syms.length ∧
      r < cum_weight syms (select_symbol syms r + 1) ∧
      ∀ j, j < select_symbol syms r → cum_weight syms (j + 1) ≤ r := by
  obtain ⟨k, hk1, hk2, hk3, hk4⟩ :=
    select_symbol_go_spec r syms 0 0 (by omega) (by omega)
  unfold select_symbol
  rw [hk1]
  simp only [Nat.zero_add]
  exact ⟨hk2, by omega, fun j hj => by have := hk4 j hj; omega⟩

lemma drawn_weight_lt (g : GenState) (h : 1 ≤ total_weight g.symbols) :
    drawn_weight g < total_weight g.symbols :=
  fast_random_uint32_zero_lt _ _ h

lemma selected_of_lt (g : GenState) (h : 1 ≤ total_weight g.symbols) :
    selected_of g < g.symbols.length :=
  (select_symbol_spec g.symbols (drawn_weight g) (drawn_weight_lt g h)).1

lemma raw_spread_bounds (g : GenState) :
    1 / 2 ≤ raw_spread_of g ∧ raw_spread_of g < 3 := by
  have := fast_random_float_bounds 0.5 3.0 (rng_after g 3) (by norm_num)
  unfold raw_spread_of
  constructor <;> [linarith [this.1]; linarith [this.2]]

lemma spread_bps_bounds (g : GenState) :
    1 / 2 ≤ spread_bps_of g ∧ spread_bps_of g < 6 := by
  obtain ⟨h1, h2⟩ := raw_spread_bounds g
  unfold spread_bps_of
  split <;> constructor <;> nlinarith

lemma new_price_ge (g : GenState) : (0.01 : ℚ) ≤ new_price_of g :=
  le_max_right _ _

lemma new_price_pos (g : GenState) : 0 < new_price_of g := by
  have := new_price_ge g
  norm_num at this
  linarith

lemma venue_idx_lt (g : GenState) (hv : g.venues ≠ []) :
    venue_idx_of g < g.venues.length :=
  fast_random_uint32_zero_lt _ _ (List.length_pos.mpr hv)

lemma getD_set_self {α : Type} [Inhabited α] (l : List α) (n : ℕ) (a : α)
    (h : n < l.length) : (l.set n a).getD n default = a := by
  rw [List.getD_eq_getElem _ _ (by rw [List.length_set]; exact h)]
  exact List.getElem_set_self _

lemma getD_set_ne {α : Type} [Inhabited α] (l : List α) (n j : ℕ) (a : α)
    (h : n ≠ j) : (l.set n a).getD j default = l.getD j default := by
  by_cases hlt : j < l.length
  · rw [List.getD_eq_getElem _ _ (by rw [List.length_set]; exact hlt),
      List.getD_eq_getElem _ _ hlt]
    exact List.getElem_set_ne h _
  · rw [List.getD_eq_default _ _ (by rw [List.length_set]; omega),
      List.getD_eq_default _ _ (by omega)]

lemma tick_multiplier_getD_bounds (i : ℕ) :
    1 ≤ TICK_MULTIPLIERS.getD i 3 ∧ TICK_MULTIPLIERS.getD i 3 ≤ 8 := by
  by_cases h : i < TICK_MULTIPLIERS.length
  · rw [List.getD_eq_getElem _ _ h]
    have hall : ∀ x ∈ TICK_MULTIPLIERS, 1 ≤ x ∧ x ≤ 8 := by decide
    exact hall _ (TICK_MULTIPLIERS.getElem_mem h)
  · rw [List.getD_eq_default _ _ (by omega)]
    omega

lemma init_symbols_go_mult :
    ∀ (names : List String) (i s : ℕ), ∀ sym ∈ (init_symbols_go i names s).1,
      1 ≤ sym.tick_multiplier ∧ sym.tick_multiplier ≤ 8 := by
  intro names
  induction names with
  | nil => intro i s sym h; simp [init_symbols_go] at h
  | cons name rest ih =>
    intro i s sym h
    simp only [init_symbols_go, List.mem_cons] at h
    rcases h with h | h
    · subst h; simpa using tick_multiplier_getD_bounds i
    · exact ih (i + 1) _ sym h

lemma init_symbols_go_length :
    ∀ (names : List String) (i s : ℕ),
      (init_symbols_go i names s).1.length = names.length := by
  intro names
  induction names with
  | nil => intro i s; simp [init_symbols_go]
  | cons name rest ih =>
    intro i s
    simp only [init_symbols_go, List.length_cons]
    rw [ih]

/-- Every state produced by `initialize_symbols` satisfies the registry
invariants assumed of a configured generator. -/
lemma init_symbols_configured (g : GenState) (names : List String)
    (vcs : List VenueInfo) : Configured (init_symbols g names vcs) := by
  refine ⟨?_, ?_, ?_⟩
  · intro s hs
    exact init_symbols_go_mult _ _ _ s hs
  · show (init_symbols_go 0 (names.take (min names.length 64)) g.rng_state).1.length ≤ 64
    rw [init_symbols_go_length, List.length_take]
    omega
  · show (vcs.take (min vcs.length 8)).length ≤ 8
    rw [List.length_take]
    omega

/-! ### Concrete states used by witnesses and counterexamples -/

/-- A venue entry (the NYSE row of `DEFAULT_VENUES`, line 25). -/
def nyse : VenueInfo :=
  { name := "NYSE", maker_fee := 0.0003, taker_fee := 0.0003, rebate := 0.0001,
    base_latency_us := 250, jitter_range_us := 50 }

/-- A small configured generator state: two symbols, one venue. -/
def gA : GenState :=
  { symbols :=
      [{ current_price := 227.21, volatility := 0.2, avg_volume := 50000,
         tick_multiplier := 5, last_update_ns := 0, price_trend := 0.01,
         symbol_name := "AAPL" },
       { current_price := 46.19, volatility := 0.3, avg_volume := 30000,
         tick_multiplier := 3, last_update_ns := 0, price_trend := -0.01,
         symbol_name := "JPM" }],
    venues := [nyse], rng_state := 12345, total_ticks_generated := 0,
    generation_time_ns := 0, target_tick_interval_ns := 10000000 }

/-- A generator whose single symbol sits exactly at the 500 boundary and
whose next price draw is positive, so the post-update price exceeds 500
while the pre-update price does not. -/
def gB : GenState :=
  { symbols :=
      [{ current_price := 500, volatility := 0.2, avg_volume := 50000,
         tick_multiplier := 5, last_update_ns := 0, price_trend := 0,
         symbol_name := "X" }],
    venues := [nyse], rng_state := 4000000028, total_ticks_generated := 0,
    generation_time_ns := 0, target_tick_interval_ns := 10000000 }

/-! ### Claim theorems -/

/-- Claim C1: for every call to `generate_tick` on a configured generator
with at least one symbol and at least one venue, the returned tick
satisfies `0 < bid_price < ask_price`, `spread_bps ≥ 0`,
`symbol_id < num_symbols` and `venue_id < num_venues`. -/
theorem generate_tick_invariants (g : GenState) (now dur : ℕ)
    (hc : Configured g) (hs : g.symbols ≠ []) (hv : g.venues ≠ []) :
    0 < (generate_tick g now dur).1.bid_price ∧
    (generate_tick g now dur).1.bid_price < (generate_tick g now dur).1.ask_price ∧
    0 ≤ (generate_tick g now dur).1.spread_bps ∧
    (generate_tick g now dur).1.symbol_id < g.symbols.length ∧
    (generate_tick g now dur).1.venue_id < g.venues.length := by
  obtain ⟨hmul, hcap, hven⟩ := hc
  have htot : 1 ≤ total_weight g.symbols :=
    total_weight_pos _ (fun s hs' => (hmul s hs').1) hs
  have hnp : (0.01 : ℚ) ≤ new_price_of g := new_price_ge g
  have hnp' : (1 / 100 : ℚ) ≤ new_price_of g := by norm_num at hnp ⊢; linarith
  obtain ⟨hsb1, hsb2⟩ := spread_bps_bounds g
  refine ⟨?_, ?_, ?_, ?_, ?_⟩
  · show 0 < bid_price_of g
    unfold bid_price_of spread_dollars_of
    nlinarith [mul_pos (show (0 : ℚ) < new_price_of g by linarith)
      (show (0 : ℚ) < 6 - spread_bps_of g by linarith)]
  · show bid_price_of g < ask_price_of g
    unfold bid_price_of ask_price_of spread_dollars_of
    nlinarith [mul_pos (show (0 : ℚ) < spread_bps_of g by linarith)
      (show (0 : ℚ) < new_price_of g by linarith)]
  · show 0 ≤ spread_bps_of g
    linarith
  · show selected_of g < g.symbols.length
    exact selected_of_lt g htot
  · show venue_idx_of g % 256 < g.venues.length
    have h1 := venue_idx_lt g hv
    rwa [Nat.mod_eq_of_lt (by omega)]

theorem generate_tick_invariants_witness :
    Configured gA ∧ gA.symbols ≠ [] ∧ gA.venues ≠ [] ∧
    (0 < (generate_tick gA 7 3).1.bid_price ∧
     (generate_tick gA 7 3).1.bid_price < (generate_tick gA 7 3).1.ask_price ∧
     0 ≤ (generate_tick gA 7 3).1.spread_bps ∧
     (generate_tick gA 7 3).1.symbol_id < gA.symbols.length ∧
     (generate_tick gA 7 3).1.venue_id < gA.venues.length) :=
  ⟨by decide, by decide, by decide,
   generate_tick_invariants gA 7 3 (by decide) (by decide) (by decide)⟩

/-- Claim C2, amended: the raw spread draw is uniform in `[0.5, 3.0)` and
is doubled exactly when the symbol's *pre-update* `current_price`
exceeds 500 (the source tests `symbol.current_price` before committing the
new price, not the newly computed price); the dollar spread equals
`spread_bps / 10000 * new_price` and is split symmetrically around the new
price (`last_price`). -/
theorem generate_tick_spread (g : GenState) (now dur : ℕ) :
    (1 / 2 ≤ raw_spread_of g ∧ raw_spread_of g < 3) ∧
    (generate_tick g now dur).1.spread_bps =
      (if 500 < (selected_sym g).current_price then raw_spread_of g * 2.0
       else raw_spread_of g) ∧
    (generate_tick g now dur).1.ask_price - (generate_tick g now dur).1.bid_price =
      (generate_tick g now dur).1.spread_bps / 10000 * (generate_tick g now dur).1.last_price ∧
    (generate_tick g now dur).1.bid_price =
      (generate_tick g now dur).1.last_price -
        (generate_tick g now dur).1.spread_bps / 10000
          * (generate_tick g now dur).1.last_price / 2 ∧
    (generate_tick g now dur).1.ask_price =
      (generate_tick g now dur).1.last_price +
        (generate_tick g now dur).1.spread_bps / 10000
          * (generate_tick g now dur).1.last_price / 2 := by
  refine ⟨raw_spread_bounds g, rfl, ?_, ?_, ?_⟩
  · show ask_price_of g - bid_price_of g = spread_bps_of g / 10000 * new_price_of g
    unfold ask_price_of bid_price_of spread_dollars_of
    ring
  · show bid_price_of g = new_price_of g - spread_bps_of g / 10000 * new_price_of g / 2
    unfold bid_price_of spread_dollars_of
    norm_num
    ring
  · show ask_price_of g = new_price_of g + spread_bps_of g / 10000 * new_price_of g / 2
    unfold ask_price_of spread_dollars_of
    norm_num
    ring

/-- Counterexample to claim C2 as stated: in state `gB` the pre-update
price is exactly 500 (not above it) while the newly computed price exceeds
500, and the returned `spread_bps` is the *undoubled* raw draw — its value
contradicts the claim's "doubled exactly when the newly computed price
exceeds 500". -/
theorem generate_tick_spread_cx :
    (selected_sym gB).current_price = 500 ∧
    500 < (generate_tick gB 0 0).1.last_price ∧
    (generate_tick gB 0 0).1.spread_bps ≠
      (if 500 < (generate_tick gB 0 0).1.last_price then raw_spread_of gB * 2.0
       else raw_spread_of gB) := by
  have hsym : selected_sym gB =
      { current_price := 500, volatility := 0.2, avg_volume := 50000,
        tick_multiplier := 5, last_update_ns := 0, price_trend := 0,
        symbol_name := "X" } := by
    rw [selected_sym, show selected_of gB = 0 from by decide]
    rfl
  have e2 : rng_after gB 2 % 2 ^ 24 = 15230654 := by decide
  have e3 : rng_after gB 3 % 2 ^ 24 = 5888499 := by decide
  have hraw : raw_spread_of gB = 46219711 / 33554432 := by
    rw [raw_spread_of, fast_random_float, e3]
    norm_num
  have hnew : (500 : ℚ) < new_price_of gB := by
    rw [new_price_of, price_change_of, hsym, fast_random_float, e2]
    norm_num
  have hnew' : (500 : ℚ) < (generate_tick gB 0 0).1.last_price := hnew
  refine ⟨by rw [hsym], hnew', ?_⟩
  rw [if_pos hnew']
  show spread_bps_of gB ≠ raw_spread_of gB * 2.0
  rw [spread_bps_of, hsym]
  rw [if_neg (by norm_num)]
  rw [hraw]
  norm_num

/-- Claim C5: `calculate_risk_metrics` computes exactly the documented
formulas, and `risk_limit_exceeded` is true iff one of the three
thresholds is crossed. -/
theorem calculate_risk_metrics_spec (f : MLFeatures) (p : ℚ) :
    (calculate_risk_metrics f p).position_risk = |p| * f.volatility_5min * 1000 ∧
    (calculate_risk_metrics f p).market_impact_estimate = |p| * f.spread_bps * 0.1 ∧
    (calculate_risk_metrics f p).execution_cost_estimate
      = |p| * (f.spread_bps * 0.5 + 0.5) ∧
    ((calculate_risk_metrics f p).risk_limit_exceeded = true ↔
      10000 < |p| * f.volatility_5min * 1000 ∨ 0.05 < |f.price_change|
        ∨ 0.10 < f.volatility_5min) := by
  refine ⟨by norm_num [calculate_risk_metrics], rfl, rfl, ?_⟩
  simp only [calculate_risk_metrics, Bool.or_eq_true, decide_eq_true_eq, or_assoc]
  norm_num

/-- Claim C6: the price committed by `generate_tick` into the selected
symbol's state, and the returned tick's `last_price`, is the changed price
floored at 0.01, hence positive. -/
theorem generate_tick_price_floor (g : GenState) (now dur : ℕ)
    (hmul : ∀ s ∈ g.symbols, 1 ≤ s.tick_multiplier) (hs : g.symbols ≠ [])
    (hpos : 0 < (selected_sym g).current_price) :
    (generate_tick g now dur).1.last_price =
      max ((selected_sym g).current_price * (1 + price_change_of g)) 0.01 ∧
    (0.01 : ℚ) ≤ (generate_tick g now dur).1.last_price ∧
    0 < (generate_tick g now dur).1.last_price ∧
    ((generate_tick g now dur).2.symbols.getD (generate_tick g now dur).1.symbol_id
        default).current_price
      = (generate_tick g now dur).1.last_price := by
  have htot : 1 ≤ total_weight g.symbols := total_weight_pos _ hmul hs
  have hsel : selected_of g < g.symbols.length := selected_of_lt g htot
  refine ⟨rfl, new_price_ge g, new_price_pos g, ?_⟩
  show ((g.symbols.set (selected_of g) _).getD (selected_of g) default).current_price
    = new_price_of g
  have hlen : selected_of g < (g.symbols.set (selected_of g)
      { selected_sym g with current_price := new_price_of g, last_update_ns := now }).length := by
    rw [List.length_set]; exact hsel
  rw [List.getD_eq_getElem _ _ hlen, List.getElem_set_self]

theorem generate_tick_price_floor_witness :
    (∀ s ∈ gA.symbols, 1 ≤ s.tick_multiplier) ∧ gA.symbols ≠ [] ∧
    0 < (selected_sym gA).current_price ∧
    ((generate_tick gA 7 3).1.last_price =
      max ((selected_sym gA).current_price * (1 + price_change_of gA)) 0.01 ∧
     (0.01 : ℚ) ≤ (generate_tick gA 7 3).1.last_price ∧
     0 < (generate_tick gA 7 3).1.last_price ∧
     ((generate_tick gA 7 3).2.symbols.getD (generate_tick gA 7 3).1.symbol_id
         default).current_price
       = (generate_tick gA 7 3).1.last_price) := by
  have hpos : 0 < (selected_sym gA).current_price := by
    rw [selected_sym, show selected_of gA = 0 from by decide]
    norm_num [gA, List.getD_cons_zero]
  exact ⟨by decide, by decide, hpos,
    generate_tick_price_floor gA 7 3 (by decide) (by decide) hpos⟩

lemma batch_go_length (clocks : ℕ → ℕ × ℕ) :
    ∀ (n i : ℕ) (g : GenState) (prev : ℕ), (batch_go clocks i n g prev).1.length = n := by
  intro n
  induction n with
  | zero => intro i g prev; simp [batch_go]
  | succ n ih =>
    intro i g prev
    simp only [batch_go, List.length_cons]
    rw [ih]

lemma batch_go_ts (clocks : ℕ → ℕ × ℕ) :
    ∀ (n i : ℕ) (g : GenState) (prev : ℕ) (k : ℕ), k < n →
      ∃ j, j ≤ g.target_tick_interval_ns / 10 ∧
        ((batch_go clocks i n g prev).1.getD k default).timestamp_ns =
          (if k = 0 then prev
           else ((batch_go clocks i n g prev).1.getD (k - 1) default).timestamp_ns)
            + (g.target_tick_interval_ns + j) := by
  intro n
  induction n with
  | zero => intro i g prev k hk; omega
  | succ n ih =>
    intro i g prev k hk
    have heq : (batch_go clocks i (n + 1) g prev).1 =
        { (generate_tick g (clocks i).1 (clocks i).2).1 with
          timestamp_ns := prev + (g.target_tick_interval_ns +
            fast_random_uint32 0 (g.target_tick_interval_ns / 10 % 2 ^ 32)
              (xorshift64 (generate_tick g (clocks i).1 (clocks i).2).2.rng_state)) } ::
        (batch_go clocks (i + 1) n
          { (generate_tick g (clocks i).1 (clocks i).2).2 with
            rng_state := xorshift64 (generate_tick g (clocks i).1 (clocks i).2).2.rng_state }
          (prev + (g.target_tick_interval_ns +
            fast_random_uint32 0 (g.target_tick_interval_ns / 10 % 2 ^ 32)
              (xorshift64 (generate_tick g (clocks i).1 (clocks i).2).2.rng_state)))).1 := rfl
    rcases k with _ | k'
    · refine ⟨fast_random_uint32 0 (g.target_tick_interval_ns / 10 % 2 ^ 32)
          (xorshift64 (generate_tick g (clocks i).1 (clocks i).2).2.rng_state), ?_, ?_⟩
      · have h1 := fast_random_uint32_zero_le (g.target_tick_interval_ns / 10 % 2 ^ 32)
          (xorshift64 (generate_tick g (clocks i).1 (clocks i).2).2.rng_state)
        have h2 := Nat.mod_le (g.target_tick_interval_ns / 10) (2 ^ 32)
        omega
      · rw [heq]
        simp
    · have hk' : k' < n := by omega
      obtain ⟨j, hj1, hj2⟩ := ih (i + 1)
        { (generate_tick g (clocks i).1 (clocks i).2).2 with
          rng_state := xorshift64 (generate_tick g (clocks i).1 (clocks i).2).2.rng_state }
        (prev + (g.target_tick_interval_ns +
          fast_random_uint32 0 (g.target_tick_interval_ns / 10 % 2 ^ 32)
            (xorshift64 (generate_tick g (clocks i).1 (clocks i).2).2.rng_state)))
        k' hk'
      refine ⟨j, hj1, ?_⟩
      rw [heq]
      simp only [List.getD_cons_succ, Nat.succ_ne_zero, if_false, Nat.add_sub_cancel]
      rcases k' with _ | k''
      · simpa using hj2
      · simpa using hj2

/-- Claim C3: when the weight draw of a `generate_tick` call yields `r`
(necessarily in `[0, total_weight - 1]`), the tick's `symbol_id` is
exactly the first index in registration order whose cumulative
`tick_multiplier` sum strictly exceeds `r`: the cumulative sum through
the selected symbol exceeds `r`, and every strictly smaller index has
cumulative sum at most `r` (so lower-indexed symbols win boundary ties). -/
theorem generate_tick_weighted_selection (g : GenState) (now dur r : ℕ)
    (hs : g.symbols ≠ []) (hr : r < total_weight g.symbols)
    (hdrawn : drawn_weight g = r) :
    (generate_tick g now dur).1.symbol_id < g.symbols.length ∧
    r < cum_weight g.symbols ((generate_tick g now dur).1.symbol_id + 1) ∧
    ∀ j, j < (generate_tick g now dur).1.symbol_id → cum_weight g.symbols (j + 1) ≤ r := by
  have hsid : (generate_tick g now dur).1.symbol_id = select_symbol g.symbols r := by
    show selected_of g = select_symbol g.symbols r
    rw [selected_of, hdrawn]
  rw [hsid]
  exact select_symbol_spec g.symbols r hr

theorem generate_tick_weighted_selection_witness :
    gA.symbols ≠ [] ∧ (1 : ℕ) < total_weight gA.symbols ∧ drawn_weight gA = 1 ∧
    ((generate_tick gA 7 3).1.symbol_id < gA.symbols.length ∧
     1 < cum_weight gA.symbols ((generate_tick gA 7 3).1.symbol_id + 1) ∧
     ∀ j, j < (generate_tick gA 7 3).1.symbol_id → cum_weight gA.symbols (j + 1) ≤ 1) :=
  ⟨by decide, by decide, by decide,
   generate_tick_weighted_selection gA 7 3 1 (by decide) (by decide) (by decide)⟩

/-- Claim C4, amended: with a null history buffer or a history of at most
one entry, `process_tick` returns exactly the default features
(`price_change = 0`, `volume_ratio = 1`, `volatility_5min = 0.02`,
`momentum_1min = 0`), with `spread_bps` and `timestamp_ns` copied from the
tick, `venue_preference = venue_id / 10`, and
`liquidity_score = log ((bid_size + ask_size + 1) mod 2^32)` — the size
sum is 32-bit unsigned arithmetic, so it agrees with
`log (bid_size + ask_size + 1)` only when `bid_size + ask_size + 1 < 2^32`. -/
theorem process_tick_empty_history (rlog rsqrt : ℚ → ℚ) (features0 : MLFeatures)
    (st : ProcStats) (tick : MarketTick) (history : Option (List MarketTick)) (dur : ℕ)
    (h : history = none ∨ ∃ l, history = some l ∧ l.length ≤ 1) :
    (process_tick rlog rsqrt features0 st tick history dur).1 =
      { price_change := 0, volume_ratio := 1.0, spread_bps := tick.spread_bps,
        volatility_5min := 0.02, momentum_1min := 0,
        liquidity_score := rlog (((tick.bid_size + tick.ask_size + 1) % 2 ^ 32 : ℕ) : ℚ),
        venue_preference := (tick.venue_id : ℚ) / 10.0,
        timestamp_ns := tick.timestamp_ns } := by
  rcases h with h | ⟨l, hl, hlen⟩
  · subst h; rfl
  · subst hl
    have hnot : ¬ 1 < l.length := by omega
    simp only [process_tick, hnot, if_false]

/-- A null-history witness input for the amended claim C4. -/
def tickW : MarketTick :=
  { timestamp_ns := 42, symbol_id := 1, bid_price := 99.9, ask_price := 100.1,
    bid_size := 300, ask_size := 700, last_price := 100, volume := 5000,
    venue_id := 2, spread_bps := 1.5 }

/-- An all-zero indeterminate initial `MLFeatures` record. -/
def mlZero : MLFeatures :=
  { price_change := 0, volume_ratio := 0, spread_bps := 0, volatility_5min := 0,
    momentum_1min := 0, liquidity_score := 0, venue_preference := 0, timestamp_ns := 0 }

/-- Zeroed processor counters. -/
def psZero : ProcStats :=
  { ticks_processed := 0, processing_time_ns := 0, feature_calculations := 0 }

theorem process_tick_empty_history_witness :
    ((none : Option (List MarketTick)) = none ∨
      ∃ l, (none : Option (List MarketTick)) = some l ∧ l.length ≤ 1) ∧
    (process_tick (fun x => x) (fun x => x) mlZero psZero tickW none 3).1 =
      { price_change := 0, volume_ratio := 1.0, spread_bps := tickW.spread_bps,
        volatility_5min := 0.02, momentum_1min := 0,
        liquidity_score := (fun x : ℚ => x)
          (((tickW.bid_size + tickW.ask_size + 1) % 2 ^ 32 : ℕ) : ℚ),
        venue_preference := (tickW.venue_id : ℚ) / 10.0,
        timestamp_ns := tickW.timestamp_ns } :=
  ⟨Or.inl rfl,
   process_tick_empty_history (fun x => x) (fun x => x) mlZero psZero tickW none 3
     (Or.inl rfl)⟩

/-- Counterexample to claim C4 as stated: a tick with
`bid_size = ask_size = 2^31` makes the `uint32_t` sum
`bid_size + ask_size + 1` wrap to 1, so `liquidity_score` is `log 1`
(here with `log` instantiated to the identity: 1), not
`log (bid_size + ask_size + 1) = log 4294967297`. -/
def tickBig : MarketTick :=
  { timestamp_ns := 0, symbol_id := 0, bid_price := 100, ask_price := 101,
    bid_size := 2 ^ 31, ask_size := 2 ^ 31, last_price := 100, volume := 1000,
    venue_id := 0, spread_bps := 1 }

theorem process_tick_empty_history_cx :
    (process_tick (fun x => x) (fun x => x) mlZero psZero tickBig none 0).1.liquidity_score ≠
      ((tickBig.bid_size + tickBig.ask_size + 1 : ℕ) : ℚ) := by
  show (((2 ^ 31 + 2 ^ 31 + 1) % 2 ^ 32 : ℕ) : ℚ) ≠ ((2 ^ 31 + 2 ^ 31 + 1 : ℕ) : ℚ)
  rw [show ((2 ^ 31 + 2 ^ 31 + 1) % 2 ^ 32 : ℕ) = 1 from by decide]
  norm_num

/-- Claim C7 (code bug): with a history of exactly two entries the recent
window has fewer than 5 entries, and the code returns `momentum_1min`
equal to whatever indeterminate value the default-initialized local
`MLFeatures features;` held — the field is never assigned on this path —
rather than the 0 the specification promises. -/
theorem process_tick_momentum_uninit (rlog rsqrt : ℚ → ℚ) (features0 : MLFeatures) :
    (process_tick rlog rsqrt features0 psZero tickW
        (some [tickW, tickW]) 0).1.momentum_1min = features0.momentum_1min := rfl

/-- Claim C8: for every batch of at least two ticks with a positive target
interval, each tick after the first carries the previous tick's timestamp
plus the target interval plus a jitter in `[0, interval / 10]`; hence the
batch's timestamps are strictly increasing and consecutive ticks are
spaced at least the target interval apart. -/
theorem generate_tick_batch_pacing (g : GenState) (clocks : ℕ → ℕ × ℕ)
    (count batch_dur : ℕ) (hcount : 2 ≤ count)
    (hpos : 1 ≤ g.target_tick_interval_ns) :
    (generate_tick_batch g clocks count batch_dur).1.length = count ∧
    ∀ i, 1 ≤ i → i < count →
      (∃ j, j ≤ g.target_tick_interval_ns / 10 ∧
        ((generate_tick_batch g clocks count batch_dur).1.getD i default).timestamp_ns =
          ((generate_tick_batch g clocks count batch_dur).1.getD (i - 1)
              default).timestamp_ns
            + g.target_tick_interval_ns + j) ∧
      ((generate_tick_batch g clocks count batch_dur).1.getD (i - 1)
            default).timestamp_ns + g.target_tick_interval_ns
        ≤ ((generate_tick_batch g clocks count batch_dur).1.getD i
            default).timestamp_ns ∧
      ((generate_tick_batch g clocks count batch_dur).1.getD (i - 1)
            default).timestamp_ns
        < ((generate_tick_batch g clocks count batch_dur).1.getD i
            default).timestamp_ns := by
  rcases count with _ | n
  · omega
  · have hout : (generate_tick_batch g clocks (n + 1) batch_dur).1 =
        (generate_tick g (clocks 0).1 (clocks 0).2).1 ::
          (batch_go clocks 1 n (generate_tick g (clocks 0).1 (clocks 0).2).2
            (generate_tick g (clocks 0).1 (clocks 0).2).1.timestamp_ns).1 := rfl
    constructor
    · rw [hout, List.length_cons, batch_go_length]
    · intro i hi1 hi2
      rcases i with _ | i'
      · omega
      · have hk : i' < n := by omega
        obtain ⟨j, hj1, hj2⟩ := batch_go_ts clocks n 1
          (generate_tick g (clocks 0).1 (clocks 0).2).2
          (generate_tick g (clocks 0).1 (clocks 0).2).1.timestamp_ns i' hk
        have hint : (generate_tick g (clocks 0).1 (clocks 0).2).2.target_tick_interval_ns
            = g.target_tick_interval_ns := rfl
        rw [hint] at hj1 hj2
        have hts : ((generate_tick_batch g clocks (n + 1) batch_dur).1.getD (i' + 1)
              default).timestamp_ns =
            ((generate_tick_batch g clocks (n + 1) batch_dur).1.getD (i' + 1 - 1)
              default).timestamp_ns + (g.target_tick_interval_ns + j) := by
          rw [hout]
          simp only [List.getD_cons_succ, Nat.add_sub_cancel]
          rcases i' with _ | i''
          · simpa using hj2
          · simpa using hj2
        exact ⟨⟨j, hj1, by omega⟩, by omega, by omega⟩

theorem generate_tick_batch_pacing_witness :
    (2 : ℕ) ≤ 3 ∧ (1 : ℕ) ≤ gA.target_tick_interval_ns ∧
    ((generate_tick_batch gA (fun _ => (100, 2)) 3 5).1.length = 3 ∧
     ∀ i, 1 ≤ i → i < 3 →
       (∃ j, j ≤ gA.target_tick_interval_ns / 10 ∧
         ((generate_tick_batch gA (fun _ => (100, 2)) 3 5).1.getD i
             default).timestamp_ns =
           ((generate_tick_batch gA (fun _ => (100, 2)) 3 5).1.getD (i - 1)
               default).timestamp_ns + gA.target_tick_interval_ns + j) ∧
       ((generate_tick_batch gA (fun _ => (100, 2)) 3 5).1.getD (i - 1)
             default).timestamp_ns + gA.target_tick_interval_ns
         ≤ ((generate_tick_batch gA (fun _ => (100, 2)) 3 5).1.getD i
             default).timestamp_ns ∧
       ((generate_tick_batch gA (fun _ => (100, 2)) 3 5).1.getD (i - 1)
             default).timestamp_ns
         < ((generate_tick_batch gA (fun _ => (100, 2)) 3 5).1.getD i
             default).timestamp_ns) :=
  ⟨by decide, by decide,
   generate_tick_batch_pacing gA (fun _ => (100, 2)) 3 5 (by decide) (by decide)⟩

/-- Claim C9: each flat-call wrapper returns 0 on any null pointer
argument, leaving the generator/processor state (including all
performance counters) unchanged and writing nothing; with all pointers
non-null it returns 1 after writing the operation's result into the
caller-provided output slot and applying exactly the operation's state
update. -/
theorem flat_call_boundary :
    (∀ b now dur, generate_tick_c none b now dur = (0, none, none)) ∧
    (∀ g now dur, generate_tick_c (some g) true now dur = (0, some g, none)) ∧
    (∀ g now dur, generate_tick_c (some g) false now dur =
      (1, some (generate_tick g now dur).2, some (generate_tick g now dur).1)) ∧
    (∀ inp b rlog rsqrt f dur,
      process_tick_c none inp b rlog rsqrt f dur = (0, none, none)) ∧
    (∀ p b rlog rsqrt f dur,
      process_tick_c (some p) none b rlog rsqrt f dur = (0, some p, none)) ∧
    (∀ p t rlog rsqrt f dur,
      process_tick_c (some p) (some t) true rlog rsqrt f dur = (0, some p, none)) ∧
    (∀ p t rlog rsqrt f dur,
      process_tick_c (some p) (some t) false rlog rsqrt f dur =
        (1, some (process_tick rlog rsqrt f p t none dur).2,
            some (process_tick rlog rsqrt f p t none dur).1)) := by
  refine ⟨fun _ _ _ => rfl, fun _ _ _ => rfl, fun _ _ _ => rfl, ?_,
    fun _ _ _ _ _ _ => rfl, fun _ _ _ _ _ _ => rfl, fun _ _ _ _ _ _ => rfl⟩
  intro inp b rlog rsqrt f dur
  cases inp <;> rfl

/-- Claim C10: a `generate_tick` call mutates only the selected symbol's
`current_price` and `last_update_ns` (besides the RNG state and the two
performance counters): the venue table, the target interval, the symbol
count, every non-selected symbol, and the selected symbol's other fields
are unchanged. -/
theorem generate_tick_frame (g : GenState) (now dur : ℕ)
    (hmul : ∀ s ∈ g.symbols, 1 ≤ s.tick_multiplier) (hs : g.symbols ≠ []) :
    (generate_tick g now dur).2.venues = g.venues ∧
    (generate_tick g now dur).2.target_tick_interval_ns = g.target_tick_interval_ns ∧
    (generate_tick g now dur).2.symbols.length = g.symbols.length ∧
    (generate_tick g now dur).2.total_ticks_generated = g.total_ticks_generated + 1 ∧
    (generate_tick g now dur).2.generation_time_ns = g.generation_time_ns + dur ∧
    (∀ j, j ≠ (generate_tick g now dur).1.symbol_id →
      (generate_tick g now dur).2.symbols.getD j default = g.symbols.getD j default) ∧
    ((generate_tick g now dur).2.symbols.getD (generate_tick g now dur).1.symbol_id
        default).volatility = (selected_sym g).volatility ∧
    ((generate_tick g now dur).2.symbols.getD (generate_tick g now dur).1.symbol_id
        default).avg_volume = (selected_sym g).avg_volume ∧
    ((generate_tick g now dur).2.symbols.getD (generate_tick g now dur).1.symbol_id
        default).tick_multiplier = (selected_sym g).tick_multiplier ∧
    ((generate_tick g now dur).2.symbols.getD (generate_tick g now dur).1.symbol_id
        default).price_trend = (selected_sym g).price_trend ∧
    ((generate_tick g now dur).2.symbols.getD (generate_tick g now dur).1.symbol_id
        default).symbol_name = (selected_sym g).symbol_name ∧
    ((generate_tick g now dur).2.symbols.getD (generate_tick g now dur).1.symbol_id
        default).current_price = new_price_of g ∧
    ((generate_tick g now dur).2.symbols.getD (generate_tick g now dur).1.symbol_id
        default).last_update_ns = now := by
  have htot : 1 ≤ total_weight g.symbols := total_weight_pos _ hmul hs
  have hsel : selected_of g < g.symbols.length := selected_of_lt g htot
  have hset : (generate_tick g now dur).2.symbols = g.symbols.set (selected_of g)
      { selected_sym g with current_price := new_price_of g, last_update_ns := now } := rfl
  have hgetsel : (generate_tick g now dur).2.symbols.getD (selected_of g) default =
      { selected_sym g with current_price := new_price_of g, last_update_ns := now } := by
    rw [hset]
    exact getD_set_self _ _ _ hsel
  refine ⟨rfl, rfl, by rw [hset, List.length_set], rfl, rfl, ?_, ?_, ?_, ?_, ?_, ?_, ?_, ?_⟩
  · intro j hj
    have hj' : selected_of g ≠ j := fun he => hj (by rw [← he]; rfl)
    rw [hset]
    exact getD_set_ne _ _ _ _ hj'
  · rw [show (generate_tick g now dur).1.symbol_id = selected_of g from rfl, hgetsel]
  · rw [show (generate_tick g now dur).1.symbol_id = selected_of g from rfl, hgetsel]
  · rw [show (generate_tick g now dur).1.symbol_id = selected_of g from rfl, hgetsel]
  · rw [show (generate_tick g now dur).1.symbol_id = selected_of g from rfl, hgetsel]
  · rw [show (generate_tick g now dur).1.symbol_id = selected_of g from rfl, hgetsel]
  · rw [show (generate_tick g now dur).1.symbol_id = selected_of g from rfl, hgetsel]
  · rw [show (generate_tick g now dur).1.symbol_id = selected_of g from rfl, hgetsel]

theorem generate_tick_frame_witness :
    (∀ s ∈ gA.symbols, 1 ≤ s.tick_multiplier) ∧ gA.symbols ≠ [] ∧
    ((generate_tick gA 7 3).2.venues = gA.venues ∧
     (generate_tick gA 7 3).2.target_tick_interval_ns = gA.target_tick_interval_ns ∧
     (generate_tick gA 7 3).2.symbols.length = gA.symbols.length ∧
     (generate_tick gA 7 3).2.total_ticks_generated = gA.total_ticks_generated + 1 ∧
     (generate_tick gA 7 3).2.generation_time_ns = gA.generation_time_ns + 3 ∧
     (∀ j, j ≠ (generate_tick gA 7 3).1.symbol_id →
       (generate_tick gA 7 3).2.symbols.getD j default = gA.symbols.getD j default) ∧
     ((generate_tick gA 7 3).2.symbols.getD (generate_tick gA 7 3).1.symbol_id
         default).volatility = (selected_sym gA).volatility ∧
     ((generate_tick gA 7 3).2.symbols.getD (generate_tick gA 7 3).1.symbol_id
         default).avg_volume = (selected_sym gA).avg_volume ∧
     ((generate_tick gA 7 3).2.symbols.getD (generate_tick gA 7 3).1.symbol_id
         default).tick_multiplier = (selected_sym gA).tick_multiplier ∧
     ((generate_tick gA 7 3).2.symbols.getD (generate_tick gA 7 3).1.symbol_id
         default).price_trend = (selected_sym gA).price_trend ∧
     ((generate_tick gA 7 3).2.symbols.getD (generate_tick gA 7 3).1.symbol_id
         default).symbol_name = (selected_sym gA).symbol_name ∧
     ((generate_tick gA 7 3).2.symbols.getD (generate_tick gA 7 3).1.symbol_id
         default).current_price = new_price_of gA ∧
     ((generate_tick gA 7 3).2.symbols.getD (generate_tick gA 7 3).1.symbol_id
         default).last_update_ns = 7) :=
  ⟨by decide, by decide, generate_tick_frame gA 7 3 (by decide) (by decide)⟩

end Hft
